import Mathlib

/-!
# Verification of the media-master asynchronous download job subsystem

Shallow embedding of the job-store, launcher, worker and status-server code
of `skills/hifi-download/scripts` (Python), together with proofs about the
embedded definitions.

Modelling conventions:
* JSON / Python values are modelled by `PyVal` (null, int, string, list,
  object).  JSON booleans and floats never occur in the store format and are
  omitted.
* `datetime` values are modelled abstractly as natural numbers (`Datetime`);
  `Datetime.isoformat` / `Datetime.fromisoformat` are an injective encoding
  into nonempty strings and its partial inverse, mirroring the round-trip
  behaviour of the Python pair on values the code itself produced.
* Raising Python code is modelled with `Except PyErr`; an operation's effect
  on the persisted file is returned explicitly (the store file is only
  replaced by a completed `save_state`, mirroring the temp-file-then-rename
  write).
-/

mutual
/-- Python/JSON values, as produced by `json.load`.  Mutual with `PyList`
(JSON arrays) and `PyFields` (JSON objects, association lists of fields). -/
inductive PyVal where
  | none
  | int (n : Int)
  | str (s : String)
  | list (xs : PyList)
  | dict (fs : PyFields)
  deriving DecidableEq
inductive PyList where
  | nil
  | cons (v : PyVal) (tl : PyList)
  deriving DecidableEq
inductive PyFields where
  | nil
  | cons (k : String) (v : PyVal) (tl : PyFields)
  deriving DecidableEq
end

def PyList.toList : PyList → List PyVal
  | .nil => []
  | .cons v tl => v :: tl.toList

def PyList.ofList : List PyVal → PyList
  | [] => .nil
  | v :: tl => .cons v (PyList.ofList tl)

def PyFields.toList : PyFields → List (String × PyVal)
  | .nil => []
  | .cons k v tl => (k, v) :: tl.toList

def PyFields.ofList : List (String × PyVal) → PyFields
  | [] => .nil
  | (k, v) :: tl => .cons k v (PyFields.ofList tl)

/-- `fields.get k`: first binding of `k` (objects parsed from JSON have
unique keys). -/
def PyFields.get : PyFields → String → Option PyVal
  | .nil, _ => Option.none
  | .cons k v tl, key => if k = key then some v else tl.get key

/-- `data.get(key, default)` on a Python dict. -/
def PyFields.getD (fs : PyFields) (key : String) (dflt : PyVal) : PyVal :=
  (fs.get key).getD dflt

/-- Number of fields of an object. -/
def PyFields.length : PyFields → Nat
  | .nil => 0
  | .cons _ _ tl => tl.length + 1

/-- Length of a JSON array. -/
def PyList.length : PyList → Nat
  | .nil => 0
  | .cons _ tl => tl.length + 1

/-- Convenience constructor for a JSON object. -/
def pyObj (l : List (String × PyVal)) : PyVal := .dict (PyFields.ofList l)

/-- Convenience constructor for a JSON array. -/
def pyArr (l : List PyVal) : PyVal := .list (PyList.ofList l)

/-- Python truthiness (`if value:`) on the modelled values. -/
def PyVal.truthy : PyVal → Bool
  | .none => false
  | .int n => n != 0
  | .str s => s != ""
  | .list xs => xs != .nil
  | .dict fs => fs != .nil

/-- Whether a value may be used as a Python dict key (lists and dicts are
unhashable; `result[task.id] = task` raises `TypeError` on them). -/
def PyVal.hashable : PyVal → Bool
  | .list _ => false
  | .dict _ => false
  | _ => true

/-- `len(value)` for the values that support it. -/
def PyVal.pyLen : PyVal → Option Int
  | .str s => some s.length
  | .list xs => some xs.length
  | .dict fs => some fs.length
  | _ => Option.none

/-- Exceptions that the modelled code can raise. -/
inductive PyErr where
  | attributeError
  | typeError
  | valueError
  deriving DecidableEq

deriving instance DecidableEq for Except

/-! ## Datetimes

`datetime` values are abstract time points (`Nat`).  `isoformat` renders a
time point as a nonempty string (a marker character followed by the decimal
digits); `fromisoformat` parses exactly those strings back.  The only
properties the embedded code relies on are the ones proved below: the
encoding is nonempty and `fromisoformat` inverts `isoformat`. -/

abbrev Datetime := Nat

/-- Little-endian base-10 digits, fuel-based so that it reduces in the
kernel.  `digitsFuel (n+1) n` is exact for every `n`. -/
def digitsFuel : Nat → Nat → List Nat
  | 0, _ => []
  | fuel + 1, n => if n = 0 then [] else n % 10 :: digitsFuel fuel (n / 10)

def decimalDigits (n : Nat) : List Nat := digitsFuel (n + 1) n

def digitToChar (d : Nat) : Char := Char.ofNat (48 + d)

def charToDigit (c : Char) : Option Nat :=
  if 48 ≤ c.toNat ∧ c.toNat ≤ 57 then some (c.toNat - 48) else Option.none

def decodeDigitChars : List Char → Option (List Nat)
  | [] => some []
  | c :: cs =>
    match charToDigit c, decodeDigitChars cs with
    | some d, some ds => some (d :: ds)
    | _, _ => Option.none

/-- Value of a little-endian digit list. -/
def ofDigitsLE (ds : List Nat) : Nat := ds.foldr (fun d acc => d + 10 * acc) 0

def Datetime.isoformat (t : Datetime) : String :=
  String.mk ('T' :: (decimalDigits t).map digitToChar)

def Datetime.fromisoformat (s : String) : Option Datetime :=
  match s.data with
  | 'T' :: cs =>
    match decodeDigitChars cs with
    | some ds => some (ofDigitsLE ds)
    | Option.none => Option.none
  | _ => Option.none

/-! ## `lib/download_state.py`: data model -/

/-- `class DownloadStatus(str, Enum)` from `lib/download_state.py`. -/
inductive DownloadStatus where
  | pending
  | in_progress
  | completed
  | failed
  deriving DecidableEq

/-- The `.value` of a status member (its serialized string form). -/
def DownloadStatus.value : DownloadStatus → String
  | .pending => "pending"
  | .in_progress => "in_progress"
  | .completed => "completed"
  | .failed => "failed"

/-- `DownloadStatus(x)` on an arbitrary value: succeeds exactly on the four
member strings, raises `ValueError` otherwise (`none` here). -/
def DownloadStatus.ofValue : PyVal → Option DownloadStatus
  | .str "pending" => some .pending
  | .str "in_progress" => some .in_progress
  | .str "completed" => some .completed
  | .str "failed" => some .failed
  | _ => Option.none

/-- `DownloadStatus(s)` on a string. -/
def DownloadStatus.ofString (s : String) : Option DownloadStatus :=
  DownloadStatus.ofValue (.str s)

/-- A Python value passed as a keyword argument to `update_task` (or held in
one of the untyped record fields after an update): a plain value, a
`DownloadStatus` enum member, or a `datetime`. -/
inductive UpdVal where
  | py (v : PyVal)
  | status (s : DownloadStatus)
  | time (t : Datetime)
  deriving DecidableEq

/-- `@dataclass DownloadTask` from `lib/download_state.py`.  The fields that
Python never inspects are carried as raw `PyVal`s (`from_dict` performs no
type validation on them); `status` is always an enum member after
`from_dict`, and the timestamps are `datetime`s.  `extra` models attributes
outside the dataclass schema that `setattr` may attach to the instance
(`to_dict` ignores them). -/
structure DownloadTask where
  id : PyVal
  platform : PyVal
  item_id : PyVal
  item_type : PyVal
  status : DownloadStatus
  output_path : PyVal
  progress : PyVal
  file_path : PyVal
  error : PyVal
  created_at : Datetime
  updated_at : Datetime
  artist : PyVal
  album_title : PyVal
  track_title : PyVal
  total_items : PyVal
  downloaded_items : PyVal
  extra : List (String × UpdVal)
  deriving DecidableEq

/-- `_parse_datetime(value)` applied to `data.get(k)`: falsy values fall back
to `datetime.now()`; truthy strings are parsed (`ValueError` on failure);
truthy non-strings make `fromisoformat` raise (`none` here, the caller
skips the record). -/
def parseDatetime (v : PyVal) (now : Datetime) : Option Datetime :=
  if v.truthy then
    match v with
    | .str s => Datetime.fromisoformat s
    | _ => Option.none
  else some now

/-- `DownloadTask.to_dict()`. -/
def DownloadTask.to_dict (t : DownloadTask) : PyVal :=
  pyObj [("id", t.id), ("platform", t.platform), ("item_id", t.item_id),
    ("item_type", t.item_type), ("status", .str t.status.value),
    ("output_path", t.output_path), ("progress", t.progress),
    ("file_path", t.file_path), ("error", t.error),
    ("created_at", .str t.created_at.isoformat),
    ("updated_at", .str t.updated_at.isoformat),
    ("artist", t.artist), ("album_title", t.album_title),
    ("track_title", t.track_title), ("total_items", t.total_items),
    ("downloaded_items", t.downloaded_items)]

/-- `DownloadTask.from_dict(data)`: `none` when the Python original raises
(missing required key, unrecognized status, unparsable timestamp, or a
non-dict argument).  `now` is the ambient `datetime.now()` used by the
missing-timestamp fallback. -/
def DownloadTask.from_dict (v : PyVal) (now : Datetime) : Option DownloadTask :=
  match v with
  | .dict data => do
    let id ← data.get "id"
    let platform ← data.get "platform"
    let item_id ← data.get "item_id"
    let item_type ← data.get "item_type"
    let statusv ← data.get "status"
    let status ← DownloadStatus.ofValue statusv
    let created_at ← parseDatetime (data.getD "created_at" .none) now
    let updated_at ← parseDatetime (data.getD "updated_at" .none) now
    some { id, platform, item_id, item_type, status,
           output_path := data.getD "output_path" .none,
           progress := (data.get "progress").getD (.int 0),
           file_path := data.getD "file_path" .none,
           error := data.getD "error" .none,
           created_at, updated_at,
           artist := data.getD "artist" .none,
           album_title := data.getD "album_title" .none,
           track_title := data.getD "track_title" .none,
           total_items := data.getD "total_items" .none,
           downloaded_items := data.getD "downloaded_items" .none,
           extra := [] }
  | _ => Option.none

/-! ## `lib/download_state.py`: the store -/

/-- The in-memory store: a Python dict from task id to task, modelled as an
association list that preserves insertion order (Python dicts keep the
original position when an existing key is reassigned). -/
abbrev Store := List (PyVal × DownloadTask)

/-- `downloads[k]` lookup (`dict.get`). -/
def storeGet (st : Store) (k : PyVal) : Option DownloadTask :=
  match st with
  | [] => Option.none
  | (k', t) :: tl => if k' = k then some t else storeGet tl k

/-- `downloads[k] = t`: reassigning an existing key keeps its position, a new
key is appended. -/
def storeInsert (st : Store) (k : PyVal) (t : DownloadTask) : Store :=
  match st with
  | [] => [(k, t)]
  | (k', t') :: tl => if k' = k then (k, t) :: tl else (k', t') :: storeInsert tl k t

/-- The on-disk state of `~/.musicmaster/downloads.json`. -/
inductive FileState where
  | missing
  | invalidJson
  | parsed (root : PyVal)
  deriving DecidableEq

/-- One iteration of the loop in `load_state`: parse the entry and insert it
under its id; any exception (`from_dict` failure or an unhashable id) skips
the entry. -/
def loadEntry (now : Datetime) (acc : Store) (e : PyVal) : Store :=
  match DownloadTask.from_dict e now with
  | some task => if task.id.hashable then storeInsert acc task.id task else acc
  | Option.none => acc

/-- `load_state()`.  The `try` block covers only opening and `json.load`, so
a missing file or invalid JSON yields an empty mapping; exceptions raised
afterwards (`data.get` on a non-dict root, iterating a non-iterable
`downloads` member) propagate to the caller.  Iterating a string or a dict
yields strings, none of which parse as records, so those cases degrade to an
empty mapping. -/
def load_state (fs : FileState) (now : Datetime) : Except PyErr Store :=
  match fs with
  | .missing => .ok []
  | .invalidJson => .ok []
  | .parsed root =>
    match root with
    | .dict fields =>
      match fields.get "downloads" with
      | Option.none => .ok []
      | some (.list entries) => .ok (entries.toList.foldl (loadEntry now) [])
      | some (.str _) => .ok []
      | some (.dict _) => .ok []
      | some (.int _) => .error .typeError
      | some .none => .error .typeError
    | _ => .error .attributeError

/-- `save_state(downloads)`: serializes every record and atomically replaces
the store file; the result is the new file state. -/
def save_state (st : Store) : FileState :=
  .parsed (pyObj [("downloads", pyArr (st.map (fun p => p.2.to_dict)))])

/-- `add_task(task)`.  Returns the resulting file state; the `Except` carries
an exception raised by `load_state` (the file is then left unchanged). -/
def add_task (fs : FileState) (now : Datetime) (task : DownloadTask) :
    FileState × Except PyErr Unit :=
  match load_state fs now with
  | .error e => (fs, .error e)
  | .ok downloads =>
    if task.id.hashable then
      (save_state (storeInsert downloads task.id task), .ok ())
    else (fs, .error .typeError)

/-- The dataclass schema: the field names `to_dict` serializes. -/
def schemaKeys : List String :=
  ["id", "platform", "item_id", "item_type", "status", "output_path",
   "progress", "file_path", "error", "created_at", "updated_at", "artist",
   "album_title", "track_title", "total_items", "downloaded_items"]

/-- Coerce an update value into the JSON value `to_dict`/`json.dump` would
emit for an untyped field: plain values pass through, a `DownloadStatus`
member serializes as its string value (it is a `str` subclass), a raw
`datetime` in an untyped field makes `json.dump` raise. -/
def UpdVal.toPy : UpdVal → Option PyVal
  | .py v => some v
  | .status s => some (.str s.value)
  | .time _ => Option.none

/-- One `setattr(task, key, value)` from the loop in `update_task`, with the
special-casing of string-valued `status` (`DownloadStatus(value)`, raising
`ValueError` on an unrecognized value).  A value that would later make
`save_state`'s serialization raise (a non-enum non-string `status`, a
non-`datetime` timestamp, a raw `datetime` in an untyped field) is reported
as an error here: the Python exception then surfaces before the temp file is
written, so the net effect — an exception with the persisted store
unchanged — is the same.  Keys outside the schema become instance
attributes that `to_dict` never serializes. -/
def applyUpdate (t : DownloadTask) (key : String) (v : UpdVal) :
    Except PyErr DownloadTask :=
  if key = "status" then
    match v with
    | .status s => .ok { t with status := s }
    | .py (.str s) =>
      match DownloadStatus.ofString s with
      | some st => .ok { t with status := st }
      | Option.none => .error .valueError
    | _ => .error .attributeError
  else if key = "created_at" then
    match v with
    | .time ts => .ok { t with created_at := ts }
    | _ => .error .attributeError
  else if key = "updated_at" then
    match v with
    | .time ts => .ok { t with updated_at := ts }
    | _ => .error .attributeError
  else if key = "id" then
    match v.toPy with
    | some pv => .ok { t with id := pv }
    | Option.none => .error .typeError
  else if key = "platform" then
    match v.toPy with
    | some pv => .ok { t with platform := pv }
    | Option.none => .error .typeError
  else if key = "item_id" then
    match v.toPy with
    | some pv => .ok { t with item_id := pv }
    | Option.none => .error .typeError
  else if key = "item_type" then
    match v.toPy with
    | some pv => .ok { t with item_type := pv }
    | Option.none => .error .typeError
  else if key = "output_path" then
    match v.toPy with
    | some pv => .ok { t with output_path := pv }
    | Option.none => .error .typeError
  else if key = "progress" then
    match v.toPy with
    | some pv => .ok { t with progress := pv }
    | Option.none => .error .typeError
  else if key = "file_path" then
    match v.toPy with
    | some pv => .ok { t with file_path := pv }
    | Option.none => .error .typeError
  else if key = "error" then
    match v.toPy with
    | some pv => .ok { t with error := pv }
    | Option.none => .error .typeError
  else if key = "artist" then
    match v.toPy with
    | some pv => .ok { t with artist := pv }
    | Option.none => .error .typeError
  else if key = "album_title" then
    match v.toPy with
    | some pv => .ok { t with album_title := pv }
    | Option.none => .error .typeError
  else if key = "track_title" then
    match v.toPy with
    | some pv => .ok { t with track_title := pv }
    | Option.none => .error .typeError
  else if key = "total_items" then
    match v.toPy with
    | some pv => .ok { t with total_items := pv }
    | Option.none => .error .typeError
  else if key = "downloaded_items" then
    match v.toPy with
    | some pv => .ok { t with downloaded_items := pv }
    | Option.none => .error .typeError
  else
    .ok { t with extra := (t.extra.filter (fun p => p.1 ≠ key)) ++ [(key, v)] }

/-- The `for key, value in updates.items()` loop of `update_task`. -/
def applyUpdates (t : DownloadTask) (us : List (String × UpdVal)) :
    Except PyErr DownloadTask :=
  match us with
  | [] => .ok t
  | (k, v) :: tl =>
    match applyUpdate t k v with
    | .ok t' => applyUpdates t' tl
    | .error e => .error e

/-- `update_task(task_id, **updates)`: load, mutate the named record, stamp
`updated_at = now`, save.  Returns the resulting file state together with
the returned task (`none` when the id is absent — the file is then not
rewritten) or the raised exception (the file is then unchanged, since every
failure happens before the temp file replaces the store). -/
def update_task (fs : FileState) (now : Datetime) (task_id : PyVal)
    (us : List (String × UpdVal)) :
    FileState × Except PyErr (Option DownloadTask) :=
  match load_state fs now with
  | .error e => (fs, .error e)
  | .ok downloads =>
    match storeGet downloads task_id with
    | Option.none => (fs, .ok Option.none)
    | some task =>
      match applyUpdates task us with
      | .error e => (fs, .error e)
      | .ok t' =>
        let t'' := { t' with updated_at := now }
        (save_state (storeInsert downloads task_id t''), .ok (some t''))

/-- `get_task(task_id)`: `load_state().get(task_id)`. -/
def get_task (fs : FileState) (now : Datetime) (task_id : PyVal) :
    Except PyErr (Option DownloadTask) :=
  match load_state fs now with
  | .error e => .error e
  | .ok downloads => .ok (storeGet downloads task_id)

/-! ## `download_ui.py`: the status server read path -/

/-- `EMPTY_STATE` from `download_ui.py`. -/
def EMPTY_STATE : PyVal := pyObj [("total", .int 0), ("downloads", pyArr [])]

/-- `read_downloads_from_file()`: reads the raw JSON directly (no
`load_state`, no lock, no per-record validation).  The `try` wraps the whole
body, so every exception — missing file, invalid JSON, a non-dict root, a
`downloads` member without `len()` — degrades to `EMPTY_STATE`. -/
def read_downloads_from_file (fs : FileState) : PyVal :=
  match fs with
  | .missing => EMPTY_STATE
  | .invalidJson => EMPTY_STATE
  | .parsed root =>
    match root with
    | .dict fields =>
      let downloads := fields.getD "downloads" (pyArr [])
      match downloads.pyLen with
      | some n => pyObj [("total", .int n), ("downloads", downloads)]
      | Option.none => EMPTY_STATE
    | _ => EMPTY_STATE

/-- The body served for `GET /api/downloads` (the handler serializes
`read_downloads_from_file()` as JSON). -/
def api_downloads (fs : FileState) : PyVal := read_downloads_from_file fs

/-! ## `lib/config.py` and `platform_download.py`: the launcher -/

/-- Truthiness of an optional environment string (`bool(x)` on a string or
`None`). -/
def optStrTruthy : Option String → Bool
  | Option.none => false
  | some s => s != ""

/-- `QobuzConfig` (from `lib/config.py`): `email`/`password` come from
`os.getenv` and may be absent. -/
structure QobuzConfig where
  email : Option String
  password : Option String
  quality : Int
  download_path : String

/-- `QobuzConfig.is_configured()`: `bool(self.email and self.password)`. -/
def QobuzConfig.is_configured (c : QobuzConfig) : Bool :=
  optStrTruthy c.email && optStrTruthy c.password

/-- `TidalConfig` (from `lib/config.py`): only a quality name and a download
path; it carries no credentials and has no `is_configured` method (TIDAL
auth state lives in `~/tiddl.json`, outside the launcher's view). -/
structure TidalConfig where
  quality : String
  download_path : String

/-- The `Config` container (the fields the download path uses). -/
structure Config where
  qobuz : QobuzConfig
  tidal : TidalConfig

/-- The structured JSON error that `error_exit` prints before `sys.exit`. -/
structure ErrorExit where
  error : String
  hint : String
  recoverable : Bool
  deriving DecidableEq

/-- `validate_config(platform, config)` from `platform_download.py`: the only
check performed is for `qobuz`; every other platform (including `tidal`)
passes through unchecked. -/
def validate_config (platform : String) (config : Config) : Option ErrorExit :=
  if platform = "qobuz" && !config.qobuz.is_configured then
    some { error := "qobuz_not_configured",
           hint := "Edit .env: set QOBUZ_EMAIL and QOBUZ_PASSWORD (requires Qobuz Studio/Sublime subscription).",
           recoverable := true }
  else Option.none

/-- The command-line arguments of `platform_download.py` relevant to
`run_async`. -/
structure Args where
  item_id : String
  platform : String
  item_type : String
  output : Option String

/-- The PENDING record `run_async` builds (dataclass defaults filled in;
both timestamps default to `datetime.now()`). -/
def launcherTask (args : Args) (download_id : String) (now : Datetime) : DownloadTask :=
  { id := .str download_id,
    platform := .str args.platform,
    item_id := .str args.item_id,
    item_type := .str args.item_type,
    status := .pending,
    output_path := match args.output with
      | some o => .str o
      | Option.none => .none,
    progress := .int 0,
    file_path := .none,
    error := .none,
    created_at := now,
    updated_at := now,
    artist := .none,
    album_title := .none,
    track_title := .none,
    total_items := .none,
    downloaded_items := .none,
    extra := [] }

/-- The scratch parameter payload `run_async` writes for the worker. -/
def paramsPayload (args : Args) (download_id : String) : PyVal :=
  pyObj [("task_id", .str download_id), ("platform", .str args.platform),
    ("item_id", .str args.item_id), ("item_type", .str args.item_type),
    ("output_path", match args.output with
      | some o => .str o
      | Option.none => .none)]

/-- The externally visible effects of one `run_async` call. -/
structure AsyncEffects where
  exited : Option ErrorExit
  fileAfter : FileState
  paramsFile : Option PyVal
  workerSpawned : Bool
  returnedId : Option String
  deriving DecidableEq

/-- `run_async(args)`: validate, then insert the PENDING record, write the
scratch parameter file and spawn the detached worker.  When
`validate_config` exits, nothing has been created. -/
def run_async (args : Args) (config : Config) (fs : FileState) (now : Datetime)
    (download_id : String) : AsyncEffects :=
  match validate_config args.platform config with
  | some e =>
    { exited := some e, fileAfter := fs, paramsFile := Option.none,
      workerSpawned := false, returnedId := Option.none }
  | Option.none =>
    let task := launcherTask args download_id now
    match add_task fs now task with
    | (fs', .ok ()) =>
      { exited := Option.none, fileAfter := fs',
        paramsFile := some (paramsPayload args download_id),
        workerSpawned := true, returnedId := some download_id }
    | (fs', .error _) =>
      -- an exception from `add_task` aborts `run_async` before the scratch
      -- file is written or the worker spawned (`main` turns it into a
      -- non-recoverable `error_exit`)
      { exited := some { error := "exception", hint := "", recoverable := false },
        fileAfter := fs', paramsFile := Option.none,
        workerSpawned := false, returnedId := Option.none }

/-! ## Python `str` methods

Models of the Python string methods the download path uses, written over
character lists so that they evaluate in the kernel.  All the strings the
code manipulates are ASCII. -/

/-- `s.startswith(pre)`. -/
def pyStartsWith (s pre : String) : Bool := pre.data.isPrefixOf s.data

/-- Characters `str.strip()` removes. -/
def isPySpace (c : Char) : Bool :=
  c = ' ' || c = '\t' || c = '\n' || c = '\x0d' || c = '\x0b' || c = '\x0c'

/-- `s.strip()`. -/
def pyStrip (s : String) : String :=
  String.mk (((s.data.dropWhile isPySpace).reverse.dropWhile isPySpace).reverse)

/-- `s.splitlines()`: split at newlines, no trailing empty line. -/
def pySplitlinesAux : List Char → List Char → List String
  | [], acc => if acc.isEmpty then [] else [String.mk acc.reverse]
  | c :: cs, acc =>
    if c = '\n' then String.mk acc.reverse :: pySplitlinesAux cs []
    else pySplitlinesAux cs (c :: acc)

def pySplitlines (s : String) : List String := pySplitlinesAux s.data []

/-- `s.lower()` (ASCII). -/
def pyLower (s : String) : String :=
  String.mk (s.data.map (fun c =>
    if 'A' ≤ c ∧ c ≤ 'Z' then Char.ofNat (c.toNat + 32) else c))

/-! ## `lib/platform.py`: `QobuzService.download` -/

/-- The observable behaviour of the `qobuz-dl` subprocess call and of the
download directory, abstracted: whether the bounded (30-minute) call timed
out, its exit code and captured output, and the directory listing before and
after. -/
structure SubprocEnv where
  timedOut : Bool
  returncode : Int
  stdoutS : String
  stderrS : String
  foldersBefore : List String
  foldersAfter : List String

/-- `a or b or c` on Python strings (first truthy wins). -/
def firstTruthy (a b c : String) : String :=
  if a != "" then a else if b != "" then b else c

/-- Case-insensitive substring test (`needle in haystack.lower()`). -/
def containsLower (haystack needle : String) : Bool :=
  decide (needle.data <:+: (pyLower haystack).data)

/-- `QobuzService.download(item_id, item_type, output_path)` from
`lib/platform.py`, as a function of the subprocess environment.  Note the
timeout branch returns a message that does **not** start with `"Error"`. -/
def QobuzService.download (item_id item_type download_path : String)
    (env : SubprocEnv) : String :=
  if env.timedOut then
    "Download timed out for Qobuz " ++ item_type ++ ": " ++ item_id
  else if env.returncode != 0 then
    "Error downloading from Qobuz: " ++ firstTruthy env.stderrS env.stdoutS "Unknown error"
  else
    let newFolders := env.foldersAfter.filter (fun f => f ∉ env.foldersBefore)
    if newFolders.isEmpty then
      if containsLower (env.stdoutS ++ env.stderrS) "not found"
          || containsLower (env.stdoutS ++ env.stderrS) "error" then
        "Error: Qobuz " ++ item_type ++ " not found (ID: " ++ item_id ++ "). Please verify the ID is correct."
      else
        "Error: Download completed but no files were created. The " ++ item_type
          ++ " ID '" ++ item_id ++ "' may be invalid."
    else
      "Downloaded: " ++ newFolders.headD "" ++ "\nLocation: " ++ download_path

/-! ## `_download_worker.py`: the worker -/

/-- The `Location:` extraction loop of the worker: the first line starting
with `"Location:"`, split once at `":"` and stripped; `None` when no such
line exists. -/
def extract_file_path (result : String) : PyVal :=
  match (pySplitlines result).find? (fun line => pyStartsWith line "Location:") with
  | some line => .str (pyStrip (String.mk (line.data.drop 9)))
  | Option.none => .none

/-- The keyword arguments of the worker's terminal `update_task` call, as a
function of the backend's result string: a result starting with `"Error"`
fails the task, anything else completes it. -/
def worker_finish_updates (result : String) : List (String × UpdVal) :=
  if pyStartsWith result "Error" then
    [("status", .status .failed), ("error", .py (.str result))]
  else
    [("status", .status .completed), ("file_path", .py (extract_file_path result)),
     ("progress", .py (.int 100))]

/-- The error message of the worker's SIGTERM handler. -/
def sigtermMessage : String := "Download cancelled (process terminated)"

/-- Outcome of `service.download(...)` inside the worker's `try`: either a
returned string or a raised exception (whose `str(e)` is recorded). -/
inductive BackendOutcome where
  | ret (s : String)
  | exn (msg : String)

/-- The worker's execution after the params file has been consumed: mark the
task IN_PROGRESS, run the backend, then write the terminal state (FAILED
with the stringified exception when the backend raised).  The result is the
final store file. -/
def worker_run (fs : FileState) (now : Datetime) (task_id : String)
    (outcome : BackendOutcome) : FileState :=
  let fs1 := (update_task fs now (.str task_id) [("status", .status .in_progress)]).1
  match outcome with
  | .ret result => (update_task fs1 now (.str task_id) (worker_finish_updates result)).1
  | .exn msg =>
    (update_task fs1 now (.str task_id)
      [("status", .status .failed), ("error", .py (.str msg))]).1

/-! ## Worker lifecycle events

One job's store mutations, as atomic events: the launcher's insert, the
worker's start and terminal updates, and the SIGTERM handler's best-effort
FAILED write.  The worker is spawned only after the insert, its program
order puts the start update before the terminal one, and the handler exits
the process, so no worker event follows it. -/

inductive Ev where
  | insert (t : DownloadTask)
  | updStart
  | updFinish (result : String)
  | sigterm

/-- Effect of one event on the store file. -/
def stepEv (now : Datetime) (tid : String) (fs : FileState) : Ev → FileState
  | .insert t => (add_task fs now t).1
  | .updStart => (update_task fs now (.str tid) [("status", .status .in_progress)]).1
  | .updFinish r => (update_task fs now (.str tid) (worker_finish_updates r)).1
  | .sigterm =>
    (update_task fs now (.str tid)
      [("status", .status .failed), ("error", .py (.str sigtermMessage))]).1

/-- The status a poller observes for job `tid` (nothing while the record is
absent or unreadable). -/
def statusOf (fs : FileState) (now : Datetime) (tid : String) : Option DownloadStatus :=
  match get_task fs now (.str tid) with
  | .ok (some t) => some t.status
  | _ => Option.none

/-- The successive status values of job `tid` along a run: the observable
status after each event (states where the record does not exist are
invisible to a poller). -/
def statusHistory (now : Datetime) (tid : String) (fs0 : FileState) (evs : List Ev) :
    List DownloadStatus :=
  (List.scanl (stepEv now tid) fs0 evs).filterMap (fun fs => statusOf fs now tid)

/-- The interleavings of one job's events: the insert comes first, worker
events follow their program order, a single optional SIGTERM may arrive at
any point after the worker could exist, and nothing follows it. -/
inductive JobSched (t : DownloadTask) (r : String) : List Ev → Prop where
  | insertOnly : JobSched t r [.insert t]
  | started : JobSched t r [.insert t, .updStart]
  | finished : JobSched t r [.insert t, .updStart, .updFinish r]
  | killedEarly : JobSched t r [.insert t, .sigterm]
  | killedMid : JobSched t r [.insert t, .updStart, .sigterm]
  | killedLate : JobSched t r [.insert t, .updStart, .updFinish r, .sigterm]

/-! ## Store lemmas -/

/-- Erase the non-schema instance attributes (what a serialize/deserialize
round trip forgets). -/
def DownloadTask.clearExtra (t : DownloadTask) : DownloadTask := { t with extra := [] }

/-- The keys of a store. -/
def storeKeys (st : Store) : List PyVal := st.map Prod.fst

/-- Every pair of the store is keyed by its record's (hashable) id — the
invariant of stores built through `load_state`/`add_task`/`update_task`. -/
def WellKeyed (st : Store) : Prop := ∀ p ∈ st, p.1 = p.2.id ∧ p.1.hashable = true

/-- The view of one `downloads` entry that `load_state` keeps: the parsed
record, provided parsing succeeded and its id is usable as a dict key. -/
def validTask (now : Datetime) (e : PyVal) : Option DownloadTask :=
  match DownloadTask.from_dict e now with
  | some t => if t.id.hashable then some t else Option.none
  | Option.none => Option.none

/-- The last entry of the `downloads` list that is a record with id `k`
(the one `load_state` ends up keeping under `k`). -/
def lastValidWithId (now : Datetime) (entries : List PyVal) (k : PyVal) :
    Option DownloadTask :=
  ((entries.filterMap (validTask now)).filter (fun t => t.id = k)).getLast?

/-! ## Views and concrete fixtures used by the claim statements -/

/-- The `"id"` member of a serialized record, as the dashboard's raw entries
carry it. -/
def entryIdOf (v : PyVal) : Option PyVal :=
  match v with
  | .dict fields => fields.get "id"
  | _ => Option.none

/-- The `downloads` member of the `/api/downloads` response, as a list. -/
def apiEntries (fs : FileState) : Option (List PyVal) :=
  match read_downloads_from_file fs with
  | .dict fields =>
    match fields.get "downloads" with
    | some (.list xs) => some xs.toList
    | _ => Option.none
  | _ => Option.none

/-- Whether one `downloads` entry carries truthy `created_at` and
`updated_at` members (so that parsing it never consults `datetime.now()`). -/
def entryTimeComplete (e : PyVal) : Bool :=
  match e with
  | .dict data => (data.getD "created_at" .none).truthy && (data.getD "updated_at" .none).truthy
  | _ => true

/-- Whether no record of the store file is parsed with the `now()` fallback. -/
def fileTimeComplete (fs : FileState) : Bool :=
  match fs with
  | .parsed (.dict fields) =>
    match fields.get "downloads" with
    | some (.list entries) => entries.toList.all entryTimeComplete
    | _ => true
  | _ => true

/-- The (status, file_path, error) triple of a job as a poller sees it. -/
def taskOutcome (fs : FileState) (now : Datetime) (tid : String) :
    Option (DownloadStatus × PyVal × PyVal) :=
  match get_task fs now (.str tid) with
  | .ok (some t) => some (t.status, t.file_path, t.error)
  | _ => Option.none

/-- A subprocess environment in which the `qobuz-dl` call exceeds its
30-minute timeout. -/
def envTimeout : SubprocEnv :=
  { timedOut := true, returncode := 0, stdoutS := "", stderrS := "",
    foldersBefore := [], foldersAfter := [] }

/-- A qobuz album submission, as exercised by the end-to-end property. -/
def demoArgs : Args :=
  { item_id := "12345", platform := "qobuz", item_type := "album", output := some "/tmp/out" }

/-- A tidal album submission. -/
def tidalArgs : Args :=
  { item_id := "67890", platform := "tidal", item_type := "album", output := Option.none }

/-- A configuration with no credentials anywhere. -/
def configNone : Config :=
  { qobuz := { email := Option.none, password := Option.none, quality := 27,
               download_path := "./downloads/qobuz" },
    tidal := { quality := "HiFi", download_path := "./downloads/tidal" } }

/-- A successful backend result string. -/
def demoResult : String := "Downloaded: X\nLocation: /tmp/out/X"

/-- A minimal valid serialized record (timestamps absent, so the reader's
`now` fallback fills them). -/
def mkRec (i : String) (st : String) : PyVal :=
  pyObj [("id", .str i), ("platform", .str "qobuz"), ("item_id", .str "x"),
    ("item_type", .str "album"), ("status", .str st)]

/-- The task `mkRec i st` parses to at time 0. -/
def mkTask (i : String) (st : DownloadStatus) : DownloadTask :=
  { id := .str i, platform := .str "qobuz", item_id := .str "x",
    item_type := .str "album", status := st, output_path := .none,
    progress := .int 0, file_path := .none, error := .none, created_at := 0,
    updated_at := 0, artist := .none, album_title := .none, track_title := .none,
    total_items := .none, downloaded_items := .none, extra := [] }

/-- A record missing its required `status` member. -/
def badRec : PyVal :=
  pyObj [("id", .str "e"), ("platform", .str "qobuz"), ("item_id", .str "x"),
    ("item_type", .str "album")]

/-- A store file with five records of which one is malformed. -/
def demoFile5 : FileState :=
  .parsed (pyObj [("downloads", pyArr
    [mkRec "a" "pending", mkRec "b" "in_progress", badRec,
     mkRec "c" "completed", mkRec "d" "failed"])])

/-- A store file holding one record with no timestamp members. -/
def demoFileNoTs : FileState :=
  .parsed (pyObj [("downloads", pyArr [mkRec "a" "pending"])])

/-- A store file with one valid and one malformed record. -/
def demoFileMixed : FileState :=
  .parsed (pyObj [("downloads", pyArr [mkRec "a" "pending", badRec])])

/-- A store file whose `downloads` list has two valid entries with the same
id. -/
def demoFileDup : FileState :=
  .parsed (pyObj [("downloads", pyArr
    [mkRec "a" "pending", mkRec "b" "pending", mkRec "a" "completed"])])

@[simp] theorem PyList.toList_ofList (l : List PyVal) : (PyList.ofList l).toList = l := by
  induction l with
  | nil => rfl
  | cons v tl ih => simp [PyList.ofList, PyList.toList, ih]

@[simp] theorem PyFields.fieldsToList_ofList (l : List (String × PyVal)) :
    (PyFields.ofList l).toList = l := by
  induction l with
  | nil => rfl
  | cons kv tl ih => cases kv; simp [PyFields.ofList, PyFields.toList, ih]

theorem ofDigitsLE_digitsFuel {fuel n : Nat} (h : n < fuel) :
    ofDigitsLE (digitsFuel fuel n) = n := by
  induction fuel generalizing n with
  | zero => omega
  | succ fuel ih =>
    by_cases hn : n = 0
    · simp [digitsFuel, hn, ofDigitsLE]
    · have hdiv : n / 10 < fuel := by
        have : n / 10 < n := Nat.div_lt_self (Nat.pos_of_ne_zero hn) (by omega)
        omega
      simp only [digitsFuel, hn, if_false, ofDigitsLE, List.foldr_cons]
      have := ih hdiv
      simp only [ofDigitsLE] at this
      rw [this]
      exact Nat.mod_add_div n 10

theorem digitsFuel_lt_ten {fuel n : Nat} {d : Nat} (hd : d ∈ digitsFuel fuel n) : d < 10 := by
  induction fuel generalizing n with
  | zero => simp [digitsFuel] at hd
  | succ fuel ih =>
    by_cases hn : n = 0
    · simp [digitsFuel, hn] at hd
    · simp only [digitsFuel, hn, if_false, List.mem_cons] at hd
      rcases hd with h | h
      · subst h; omega
      · exact ih h

theorem charToDigit_digitToChar {d : Nat} (h : d < 10) :
    charToDigit (digitToChar d) = some d := by
  interval_cases d <;> decide

theorem decodeDigitChars_map {ds : List Nat} (h : ∀ d ∈ ds, d < 10) :
    decodeDigitChars (ds.map digitToChar) = some ds := by
  induction ds with
  | nil => rfl
  | cons d tl ih =>
    have hd : d < 10 := h d (by simp)
    have htl : ∀ x ∈ tl, x < 10 := fun x hx => h x (by simp [hx])
    simp [decodeDigitChars, charToDigit_digitToChar hd, ih htl]

/-- `fromisoformat` inverts `isoformat`. -/
theorem Datetime.fromisoformat_isoformat (t : Datetime) :
    Datetime.fromisoformat (Datetime.isoformat t) = some t := by
  have hdig : ∀ d ∈ decimalDigits t, d < 10 := fun d hd => digitsFuel_lt_ten hd
  have h1 : Datetime.fromisoformat (Datetime.isoformat t)
      = match decodeDigitChars ((decimalDigits t).map digitToChar) with
        | some ds => some (ofDigitsLE ds)
        | Option.none => Option.none := rfl
  rw [h1, decodeDigitChars_map hdig]
  simp [decimalDigits, ofDigitsLE_digitsFuel (Nat.lt_succ_self t)]

/-- `isoformat` always produces a nonempty string. -/
theorem Datetime.isoformat_ne_empty (t : Datetime) : Datetime.isoformat t ≠ "" := by
  simp [Datetime.isoformat, String.ext_iff]

theorem storeGet_storeInsert_self (st : Store) (k : PyVal) (t : DownloadTask) :
    storeGet (storeInsert st k t) k = some t := by
  induction st with
  | nil => simp [storeInsert, storeGet]
  | cons p tl ih =>
    obtain ⟨k', t'⟩ := p
    by_cases h : k' = k
    · simp [storeInsert, storeGet, h]
    · simp [storeInsert, storeGet, h, ih]

theorem storeGet_storeInsert_ne (st : Store) (k kq : PyVal) (t : DownloadTask)
    (h : k ≠ kq) :
    storeGet (storeInsert st k t) kq = storeGet st kq := by
  induction st with
  | nil => simp [storeInsert, storeGet, h]
  | cons p tl ih =>
    obtain ⟨k', t'⟩ := p
    by_cases hk : k' = k
    · subst hk
      simp [storeInsert, storeGet, h]
    · simp [storeInsert, storeGet, hk, ih]

/-- If the key is fresh, `storeInsert` appends. -/
theorem storeInsert_append (st : Store) (k : PyVal) (t : DownloadTask)
    (h : ∀ p ∈ st, p.1 ≠ k) :
    storeInsert st k t = st ++ [(k, t)] := by
  induction st with
  | nil => rfl
  | cons p tl ih =>
    obtain ⟨k', t'⟩ := p
    have hk : k' ≠ k := h (k', t') (by simp)
    simp only [storeInsert, hk, if_false, List.cons_append]
    rw [ih (fun p hp => h p (by simp [hp]))]

/-- Deserializing a serialized record recovers it (minus non-schema
attributes). -/
theorem DownloadTask.from_dict_to_dict (t : DownloadTask) (now : Datetime) :
    DownloadTask.from_dict t.to_dict now = some t.clearExtra := by
  obtain ⟨id, platform, item_id, item_type, status, output_path, progress, file_path, error,
    created_at, updated_at, artist, album_title, track_title, total_items,
    downloaded_items, extra⟩ := t
  cases status <;>
    simp [DownloadTask.from_dict, DownloadTask.to_dict, DownloadTask.clearExtra, pyObj,
      PyFields.ofList, PyFields.get, PyFields.getD, parseDatetime, PyVal.truthy,
      DownloadStatus.ofValue, DownloadStatus.value, Datetime.fromisoformat_isoformat,
      bne_iff_ne, Datetime.isoformat_ne_empty]

theorem loadEntry_to_dict (now : Datetime) (acc : Store) (t : DownloadTask)
    (h : t.id.hashable = true) :
    loadEntry now acc t.to_dict = storeInsert acc t.id t.clearExtra := by
  have hid : t.clearExtra.id = t.id := rfl
  simp [loadEntry, DownloadTask.from_dict_to_dict, hid, h]

theorem foldl_loadEntry_save (now : Datetime) (st : Store) (init : Store)
    (hwk : WellKeyed st) (hnd : (storeKeys st).Nodup)
    (hdisj : ∀ p ∈ init, p.1 ∉ storeKeys st) :
    (st.map (fun p => p.2.to_dict)).foldl (loadEntry now) init
      = init ++ st.map (fun p => (p.1, p.2.clearExtra)) := by
  induction st generalizing init with
  | nil => simp
  | cons p tl ih =>
    obtain ⟨k, t⟩ := p
    obtain ⟨hk, hh⟩ := hwk (k, t) (by simp)
    have hknotl : k ∉ storeKeys tl := by
      simp only [storeKeys, List.map_cons, List.nodup_cons] at hnd
      exact hnd.1
    have hwk' : WellKeyed tl := fun q hq => hwk q (List.mem_cons_of_mem _ hq)
    have hnd' : (storeKeys tl).Nodup := by
      simp only [storeKeys, List.map_cons, List.nodup_cons] at hnd
      exact hnd.2
    have hdisj' : ∀ q ∈ init ++ [(k, t.clearExtra)], q.1 ∉ storeKeys tl := by
      intro q hq
      rcases List.mem_append.mp hq with hq' | hq'
      · intro hmem
        exact hdisj q hq'
          (by simp only [storeKeys, List.map_cons, List.mem_cons]
              right
              simpa [storeKeys] using hmem)
      · have heq : q = (k, t.clearExtra) := by simpa using hq'
        rw [heq]
        exact hknotl
    simp only [List.map_cons, List.foldl_cons]
    rw [loadEntry_to_dict now init t (by rw [← hk]; exact hh), ← hk,
      storeInsert_append init k t.clearExtra
        (fun q hq hqk => hdisj q hq (by simp [storeKeys, hqk]))]
    rw [ih _ hwk' hnd' hdisj']
    simp

/-- Reloading a just-saved well-keyed store recovers it, minus the
non-schema instance attributes of its records. -/
theorem load_state_save_state (st : Store) (now : Datetime)
    (hwk : WellKeyed st) (hnd : (storeKeys st).Nodup) :
    load_state (save_state st) now
      = .ok (st.map (fun p => (p.1, p.2.clearExtra))) := by
  have h := foldl_loadEntry_save now st [] hwk hnd (by simp)
  simp only [load_state, save_state, pyObj, pyArr, PyFields.ofList, PyFields.get,
    if_pos, PyList.toList_ofList]
  simpa using h

theorem loadEntry_eq_validTask (now : Datetime) (acc : Store) (e : PyVal) :
    loadEntry now acc e
      = match validTask now e with
        | some t => storeInsert acc t.id t
        | Option.none => acc := by
  unfold loadEntry validTask
  cases h : DownloadTask.from_dict e now with
  | none => simp
  | some t => by_cases hh : t.id.hashable = true <;> simp [hh]

theorem validTask_hashable {now : Datetime} {e : PyVal} {t : DownloadTask}
    (h : validTask now e = some t) : t.id.hashable = true := by
  unfold validTask at h
  cases hf : DownloadTask.from_dict e now with
  | none => rw [hf] at h; exact absurd h (by simp)
  | some t' =>
    rw [hf] at h
    by_cases hh : t'.id.hashable = true
    · simp [hh] at h
      rw [← h]
      exact hh
    · simp [hh] at h

theorem from_dict_extra {v : PyVal} {now : Datetime} {t : DownloadTask}
    (h : DownloadTask.from_dict v now = some t) : t.extra = [] := by
  cases v with
  | dict data =>
    simp only [DownloadTask.from_dict] at h
    cases h1 : data.get "id" with
    | none => rw [h1] at h; simp at h
    | some i1 =>
      rw [h1] at h
      simp only [Option.bind_eq_bind, Option.some_bind] at h
      cases h2 : data.get "platform" with
      | none => rw [h2] at h; simp at h
      | some i2 =>
        rw [h2] at h
        simp only [Option.bind_eq_bind, Option.some_bind] at h
        cases h3 : data.get "item_id" with
        | none => rw [h3] at h; simp at h
        | some i3 =>
          rw [h3] at h
          simp only [Option.bind_eq_bind, Option.some_bind] at h
          cases h4 : data.get "item_type" with
          | none => rw [h4] at h; simp at h
          | some i4 =>
            rw [h4] at h
            simp only [Option.bind_eq_bind, Option.some_bind] at h
            cases h5 : data.get "status" with
            | none => rw [h5] at h; simp at h
            | some i5 =>
              rw [h5] at h
              simp only [Option.bind_eq_bind, Option.some_bind] at h
              cases h6 : DownloadStatus.ofValue i5 with
              | none => rw [h6] at h; simp at h
              | some s6 =>
                rw [h6] at h
                simp only [Option.bind_eq_bind, Option.some_bind] at h
                cases h7 : parseDatetime (data.getD "created_at" .none) now with
                | none => rw [h7] at h; simp at h
                | some c7 =>
                  rw [h7] at h
                  simp only [Option.bind_eq_bind, Option.some_bind] at h
                  cases h8 : parseDatetime (data.getD "updated_at" .none) now with
                  | none => rw [h8] at h; simp at h
                  | some u8 =>
                    rw [h8] at h
                    simp only [Option.bind_eq_bind, Option.some_bind, Option.some_inj] at h
                    rw [← h]
  | none => exact absurd h (by simp [DownloadTask.from_dict])
  | int n => exact absurd h (by simp [DownloadTask.from_dict])
  | str s => exact absurd h (by simp [DownloadTask.from_dict])
  | list xs => exact absurd h (by simp [DownloadTask.from_dict])

theorem validTask_extra {now : Datetime} {e : PyVal} {t : DownloadTask}
    (h : validTask now e = some t) : t.extra = [] := by
  unfold validTask at h
  cases hf : DownloadTask.from_dict e now with
  | none => rw [hf] at h; exact absurd h (by simp)
  | some t' =>
    rw [hf] at h
    by_cases hh : t'.id.hashable = true
    · simp [hh] at h
      rw [← h]
      exact from_dict_extra hf
    · simp [hh] at h

theorem mem_storeInsert {st : Store} {k : PyVal} {t : DownloadTask} {p : PyVal × DownloadTask}
    (h : p ∈ storeInsert st k t) : p ∈ st ∨ p = (k, t) := by
  induction st with
  | nil => simp [storeInsert] at h; right; exact h
  | cons q tl ih =>
    obtain ⟨k', t'⟩ := q
    by_cases hk : k' = k
    · subst hk
      rw [storeInsert, if_pos rfl] at h
      rcases List.mem_cons.mp h with h1 | h1
      · right; exact h1
      · left; exact List.mem_cons_of_mem _ h1
    · rw [storeInsert, if_neg hk] at h
      rcases List.mem_cons.mp h with h1 | h1
      · left; simp [h1]
      · rcases ih h1 with h2 | h2
        · left; exact List.mem_cons_of_mem _ h2
        · right; exact h2

theorem storeKeys_storeInsert (st : Store) (k : PyVal) (t : DownloadTask) :
    storeKeys (storeInsert st k t)
      = if k ∈ storeKeys st then storeKeys st else storeKeys st ++ [k] := by
  induction st with
  | nil => simp [storeInsert, storeKeys]
  | cons q tl ih =>
    obtain ⟨k', t'⟩ := q
    by_cases hk : k' = k
    · subst hk
      simp [storeInsert, storeKeys]
    · have hne : ¬k = k' := fun h => hk h.symm
      simp only [storeInsert, hk, if_false, storeKeys, List.map_cons, List.mem_cons, hne,
        false_or]
      simp only [storeKeys] at ih
      by_cases hmem : k ∈ tl.map Prod.fst <;> simp [hmem, ih]

theorem nodup_storeKeys_storeInsert {st : Store} (k : PyVal) (t : DownloadTask)
    (h : (storeKeys st).Nodup) : (storeKeys (storeInsert st k t)).Nodup := by
  rw [storeKeys_storeInsert]
  by_cases hmem : k ∈ storeKeys st
  · simp [hmem, h]
  · simp [hmem, h, List.nodup_append]

theorem wellKeyed_storeInsert {st : Store} {k : PyVal} {t : DownloadTask}
    (h : WellKeyed st) (hk : k = t.id) (hh : k.hashable = true) :
    WellKeyed (storeInsert st k t) := by
  intro p hp
  rcases mem_storeInsert hp with h' | h'
  · exact h p h'
  · rw [h']
    exact ⟨hk, hh⟩

/-- The store built by `load_state`'s loop is well-keyed, has no duplicate
keys, and all its records are free of non-schema attributes. -/
theorem foldl_loadEntry_inv (now : Datetime) (entries : List PyVal) (acc : Store)
    (h : WellKeyed acc ∧ (storeKeys acc).Nodup ∧ ∀ p ∈ acc, p.2.extra = []) :
    WellKeyed (entries.foldl (loadEntry now) acc)
      ∧ (storeKeys (entries.foldl (loadEntry now) acc)).Nodup
      ∧ ∀ p ∈ entries.foldl (loadEntry now) acc, p.2.extra = [] := by
  induction entries generalizing acc with
  | nil => exact h
  | cons e tl ih =>
    simp only [List.foldl_cons]
    apply ih
    rw [loadEntry_eq_validTask]
    cases hv : validTask now e with
    | none => exact h
    | some t =>
      refine ⟨wellKeyed_storeInsert h.1 rfl (validTask_hashable hv), ?_, ?_⟩
      · exact nodup_storeKeys_storeInsert _ _ h.2.1
      · intro p hp
        rcases mem_storeInsert hp with h' | h'
        · exact h.2.2 p h'
        · rw [h']
          exact validTask_extra hv

theorem getLast?_cons_or {α : Type} (x : α) (l : List α) :
    (x :: l).getLast? = l.getLast?.or (some x) := by
  cases l with
  | nil => rfl
  | cons y tl =>
    rw [List.getLast?_cons_cons]
    cases h : (y :: tl).getLast? with
    | none => simp at h
    | some z => rfl

/-- What `load_state`'s loop stores under a key: the last valid entry with
that id, else whatever the accumulator already held. -/
theorem storeGet_foldl_loadEntry (now : Datetime) (entries : List PyVal)
    (init : Store) (k : PyVal) :
    storeGet (entries.foldl (loadEntry now) init) k
      = (lastValidWithId now entries k).or (storeGet init k) := by
  induction entries generalizing init with
  | nil => simp [lastValidWithId, Option.none_or]
  | cons e tl ih =>
    simp only [List.foldl_cons]
    rw [ih, loadEntry_eq_validTask]
    cases hv : validTask now e with
    | none => simp [lastValidWithId, List.filterMap_cons, hv]
    | some t =>
      by_cases hid : t.id = k
      · have hlhs : storeGet (storeInsert init t.id t) k = some t := by
          rw [hid]
          exact storeGet_storeInsert_self init k t
        rw [hlhs]
        simp only [lastValidWithId, List.filterMap_cons, hv]
        rw [List.filter_cons_of_pos (by simp [hid]), getLast?_cons_or, Option.or_assoc]
        rfl
      · have hlhs : storeGet (storeInsert init t.id t) k = storeGet init k :=
          storeGet_storeInsert_ne init t.id k t hid
        rw [hlhs]
        simp only [lastValidWithId, List.filterMap_cons, hv]
        rw [List.filter_cons_of_neg (by simp [hid])]

theorem clearExtra_eq_self {t : DownloadTask} (h : t.extra = []) :
    t.clearExtra = t := by
  cases t
  simp only [DownloadTask.clearExtra]
  simp_all

theorem add_task_missing (now : Datetime) (t : DownloadTask)
    (hh : t.id.hashable = true) :
    add_task .missing now t = (save_state [(t.id, t)], .ok ()) := by
  simp [add_task, load_state, storeInsert, hh]

theorem load_save_single (k : PyVal) (t : DownloadTask) (now : Datetime)
    (hk : k = t.id) (hh : k.hashable = true) (he : t.extra = []) :
    load_state (save_state [(k, t)]) now = .ok [(k, t)] := by
  have h := load_state_save_state [(k, t)] now
    (by intro p hp
        simp only [List.mem_singleton] at hp
        rw [hp]
        exact ⟨hk, hh⟩)
    (by simp [storeKeys])
  simpa [clearExtra_eq_self he] using h

theorem update_task_single (k : PyVal) (t t' : DownloadTask) (now : Datetime)
    (us : List (String × UpdVal))
    (hk : k = t.id) (hh : k.hashable = true) (he : t.extra = [])
    (happ : applyUpdates t us = .ok t') :
    update_task (save_state [(k, t)]) now k us
      = (save_state [(k, { t' with updated_at := now })],
         .ok (some { t' with updated_at := now })) := by
  unfold update_task
  rw [load_save_single k t now hk hh he]
  simp [storeGet, storeInsert, happ]

theorem statusOf_save_single (tid : String) (t : DownloadTask) (now : Datetime)
    (hk : PyVal.str tid = t.id) (he : t.extra = []) :
    statusOf (save_state [(.str tid, t)]) now tid = some t.status := by
  unfold statusOf get_task
  rw [load_save_single _ t now hk rfl he]
  simp [storeGet]

theorem statusOf_missing (now : Datetime) (tid : String) :
    statusOf .missing now tid = Option.none := rfl

theorem applyUpdates_status (t : DownloadTask) (s : DownloadStatus) :
    applyUpdates t [("status", .status s)] = .ok { t with status := s } := by
  simp [applyUpdates, applyUpdate]

theorem applyUpdates_fail (t : DownloadTask) (m : String) :
    applyUpdates t [("status", .status .failed), ("error", .py (.str m))]
      = .ok { t with status := .failed, error := .str m } := by
  simp [applyUpdates, applyUpdate, UpdVal.toPy]

theorem applyUpdates_complete (t : DownloadTask) (fp : PyVal) :
    applyUpdates t
        [("status", .status .completed), ("file_path", .py fp), ("progress", .py (.int 100))]
      = .ok { t with status := .completed, file_path := fp, progress := .int 100 } := by
  simp [applyUpdates, applyUpdate, UpdVal.toPy]

theorem stepEv_insert (now : Datetime) (tid : String) (args : Args) :
    stepEv now tid .missing (.insert (launcherTask args tid now))
      = save_state [(.str tid, launcherTask args tid now)] := by
  simp only [stepEv]
  rw [add_task_missing now (launcherTask args tid now)
    (show (launcherTask args tid now).id.hashable = true from rfl)]
  rfl

theorem stepEv_updStart (now : Datetime) (tid : String) (t : DownloadTask)
    (hk : PyVal.str tid = t.id) (he : t.extra = []) :
    stepEv now tid (save_state [(.str tid, t)]) .updStart
      = save_state [(.str tid, { t with status := .in_progress, updated_at := now })] := by
  simp only [stepEv]
  rw [update_task_single _ t _ now _ hk rfl he (applyUpdates_status t .in_progress)]

theorem stepEv_updFinish_error (now : Datetime) (tid : String) (r : String)
    (t : DownloadTask) (hk : PyVal.str tid = t.id) (he : t.extra = [])
    (hr : pyStartsWith r "Error" = true) :
    stepEv now tid (save_state [(.str tid, t)]) (.updFinish r)
      = save_state
          [(.str tid, { t with status := .failed, error := .str r, updated_at := now })] := by
  simp only [stepEv, worker_finish_updates, hr, if_true]
  rw [update_task_single _ t _ now _ hk rfl he (applyUpdates_fail t r)]

theorem stepEv_updFinish_ok (now : Datetime) (tid : String) (r : String)
    (t : DownloadTask) (hk : PyVal.str tid = t.id) (he : t.extra = [])
    (hr : pyStartsWith r "Error" = false) :
    stepEv now tid (save_state [(.str tid, t)]) (.updFinish r)
      = save_state
          [(.str tid, { t with status := .completed, file_path := extract_file_path r, progress := .int 100, updated_at := now })] := by
  simp only [stepEv, worker_finish_updates, hr, if_false, Bool.false_eq_true]
  rw [update_task_single _ t _ now _ hk rfl he (applyUpdates_complete t (extract_file_path r))]

theorem stepEv_sigterm (now : Datetime) (tid : String) (t : DownloadTask)
    (hk : PyVal.str tid = t.id) (he : t.extra = []) :
    stepEv now tid (save_state [(.str tid, t)]) .sigterm
      = save_state
          [(.str tid, { t with status := .failed, error := .str sigtermMessage, updated_at := now })] := by
  simp only [stepEv]
  rw [update_task_single _ t _ now _ hk rfl he (applyUpdates_fail t sigtermMessage)]

theorem history_insertOnly (args : Args) (tid : String) (now : Datetime) :
    statusHistory now tid .missing [.insert (launcherTask args tid now)] = [.pending] := by
  unfold statusHistory
  rw [List.scanl_cons, stepEv_insert, List.scanl_nil]
  simp [statusOf_missing, statusOf_save_single, launcherTask]

theorem history_started (args : Args) (tid : String) (now : Datetime) :
    statusHistory now tid .missing [.insert (launcherTask args tid now), .updStart]
      = [.pending, .in_progress] := by
  unfold statusHistory
  rw [List.scanl_cons, stepEv_insert, List.scanl_cons,
    stepEv_updStart now tid _ rfl rfl, List.scanl_nil]
  simp [statusOf_missing, statusOf_save_single, launcherTask]

theorem history_finished_error (args : Args) (tid : String) (now : Datetime) (r : String)
    (hr : pyStartsWith r "Error" = true) :
    statusHistory now tid .missing
        [.insert (launcherTask args tid now), .updStart, .updFinish r]
      = [.pending, .in_progress, .failed] := by
  unfold statusHistory
  rw [List.scanl_cons, stepEv_insert, List.scanl_cons,
    stepEv_updStart now tid _ rfl rfl, List.scanl_cons,
    stepEv_updFinish_error now tid r _ rfl rfl hr, List.scanl_nil]
  simp [statusOf_missing, statusOf_save_single, launcherTask]

theorem history_finished_ok (args : Args) (tid : String) (now : Datetime) (r : String)
    (hr : pyStartsWith r "Error" = false) :
    statusHistory now tid .missing
        [.insert (launcherTask args tid now), .updStart, .updFinish r]
      = [.pending, .in_progress, .completed] := by
  unfold statusHistory
  rw [List.scanl_cons, stepEv_insert, List.scanl_cons,
    stepEv_updStart now tid _ rfl rfl, List.scanl_cons,
    stepEv_updFinish_ok now tid r _ rfl rfl hr, List.scanl_nil]
  simp [statusOf_missing, statusOf_save_single, launcherTask]

theorem history_killedEarly (args : Args) (tid : String) (now : Datetime) :
    statusHistory now tid .missing [.insert (launcherTask args tid now), .sigterm]
      = [.pending, .failed] := by
  unfold statusHistory
  rw [List.scanl_cons, stepEv_insert, List.scanl_cons,
    stepEv_sigterm now tid _ rfl rfl, List.scanl_nil]
  simp [statusOf_missing, statusOf_save_single, launcherTask]

theorem history_killedLate_ok (args : Args) (tid : String) (now : Datetime) (r : String)
    (hr : pyStartsWith r "Error" = false) :
    statusHistory now tid .missing
        [.insert (launcherTask args tid now), .updStart, .updFinish r, .sigterm]
      = [.pending, .in_progress, .completed, .failed] := by
  unfold statusHistory
  rw [List.scanl_cons, stepEv_insert, List.scanl_cons,
    stepEv_updStart now tid _ rfl rfl, List.scanl_cons,
    stepEv_updFinish_ok now tid r _ rfl rfl hr, List.scanl_cons,
    stepEv_sigterm now tid _ rfl rfl, List.scanl_nil]
  simp [statusOf_missing, statusOf_save_single, launcherTask]

theorem history_killedMid (args : Args) (tid : String) (now : Datetime) :
    statusHistory now tid .missing
        [.insert (launcherTask args tid now), .updStart, .sigterm]
      = [.pending, .in_progress, .failed] := by
  unfold statusHistory
  rw [List.scanl_cons, stepEv_insert, List.scanl_cons,
    stepEv_updStart now tid _ rfl rfl, List.scanl_cons,
    stepEv_sigterm now tid _ rfl rfl, List.scanl_nil]
  simp [statusOf_missing, statusOf_save_single, launcherTask]

/-! ## Helper lemmas for the claims -/

theorem parseDatetime_indep {v : PyVal} (now₁ now₂ : Datetime)
    (h : v.truthy = true) : parseDatetime v now₁ = parseDatetime v now₂ := by
  simp [parseDatetime, h]

theorem from_dict_indep {e : PyVal} (now₁ now₂ : Datetime)
    (h : entryTimeComplete e = true) :
    DownloadTask.from_dict e now₁ = DownloadTask.from_dict e now₂ := by
  cases e with
  | dict data =>
    simp only [entryTimeComplete, Bool.and_eq_true] at h
    simp only [DownloadTask.from_dict]
    rw [parseDatetime_indep now₁ now₂ h.1, parseDatetime_indep now₁ now₂ h.2]
  | none => rfl
  | int n => rfl
  | str s => rfl
  | list xs => rfl

theorem foldl_loadEntry_indep (now₁ now₂ : Datetime) (entries : List PyVal)
    (init : Store) (h : entries.all entryTimeComplete = true) :
    entries.foldl (loadEntry now₁) init = entries.foldl (loadEntry now₂) init := by
  induction entries generalizing init with
  | nil => rfl
  | cons e tl ih =>
    simp only [List.all_cons, Bool.and_eq_true] at h
    simp only [List.foldl_cons]
    rw [show loadEntry now₁ init e = loadEntry now₂ init e by
          simp [loadEntry, from_dict_indep now₁ now₂ h.1]]
    exact ih _ h.2

theorem load_state_indep (fs : FileState) (now₁ now₂ : Datetime)
    (h : fileTimeComplete fs = true) :
    load_state fs now₁ = load_state fs now₂ := by
  cases fs with
  | missing => rfl
  | invalidJson => rfl
  | parsed root =>
    cases root with
    | dict fields =>
      simp only [fileTimeComplete] at h
      simp only [load_state]
      cases hget : fields.get "downloads" with
      | none => rfl
      | some dv =>
        cases dv with
        | list entries =>
          rw [hget] at h
          have h' : entries.toList.all entryTimeComplete = true := by simpa using h
          show Except.ok (entries.toList.foldl (loadEntry now₁) [])
              = Except.ok (entries.toList.foldl (loadEntry now₂) [])
          rw [foldl_loadEntry_indep now₁ now₂ entries.toList [] h']
        | none => rfl
        | int n => rfl
        | str s => rfl
        | dict fs2 => rfl
    | none => rfl
    | int n => rfl
    | str s => rfl
    | list xs => rfl

theorem storeGet_some_mem {st : Store} {k : PyVal} {t : DownloadTask}
    (h : storeGet st k = some t) : (k, t) ∈ st := by
  induction st with
  | nil => simp [storeGet] at h
  | cons p tl ih =>
    obtain ⟨k', t'⟩ := p
    by_cases hk : k' = k
    · subst hk
      have ht : t' = t := by simpa [storeGet] using h
      subst ht
      simp
    · simp only [storeGet, hk, if_false] at h
      exact List.mem_cons_of_mem _ (ih h)

theorem filter_key_nil {st : Store} {k : PyVal} (h : k ∉ storeKeys st) :
    st.filter (fun p => decide (p.1 = k)) = [] := by
  induction st with
  | nil => rfl
  | cons p tl ih =>
    obtain ⟨k', t'⟩ := p
    simp only [storeKeys, List.map_cons, List.mem_cons, not_or] at h
    rw [List.filter_cons_of_neg (by simp [Ne.symm h.1])]
    exact ih h.2

theorem filter_key_of_nodup {st : Store} {k : PyVal} {t : DownloadTask}
    (hnd : (storeKeys st).Nodup) (hget : storeGet st k = some t) :
    st.filter (fun p => decide (p.1 = k)) = [(k, t)] := by
  induction st with
  | nil => simp [storeGet] at hget
  | cons p tl ih =>
    obtain ⟨k', t'⟩ := p
    simp only [storeKeys, List.map_cons, List.nodup_cons] at hnd
    by_cases hk : k' = k
    · subst hk
      have ht : t' = t := by simpa [storeGet] using hget
      subst ht
      rw [List.filter_cons_of_pos (by simp)]
      rw [filter_key_nil (by simpa [storeKeys] using hnd.1)]
    · simp only [storeGet, hk, if_false] at hget
      rw [List.filter_cons_of_neg (by simp [hk])]
      exact ih hnd.2 hget

theorem entryIdOf_to_dict (t : DownloadTask) :
    entryIdOf t.to_dict = some t.id := by
  simp [entryIdOf, DownloadTask.to_dict, pyObj, PyFields.ofList, PyFields.get]

theorem applyUpdates_error_of_mem {us : List (String × UpdVal)} {k : String} {v : UpdVal}
    (hmem : (k, v) ∈ us) (herr : ∀ t' : DownloadTask, ∃ e, applyUpdate t' k v = .error e) :
    ∀ t : DownloadTask, ∃ e, applyUpdates t us = .error e := by
  induction us with
  | nil => simp at hmem
  | cons p tl ih =>
    intro t
    obtain ⟨k', v'⟩ := p
    cases hap : applyUpdate t k' v' with
    | error e => exact ⟨e, by simp [applyUpdates, hap]⟩
    | ok t1 =>
      rcases List.mem_cons.mp hmem with hh | hh
      · injection hh with h1 h2
        subst h1
        subst h2
        obtain ⟨e, he⟩ := herr t
        rw [hap] at he
        exact absurd he (by simp)
      · obtain ⟨e, he⟩ := ih hh t1
        exact ⟨e, by simp [applyUpdates, hap, he]⟩

theorem applyUpdate_bad_status (t : DownloadTask) (s : String)
    (h : DownloadStatus.ofString s = Option.none) :
    applyUpdate t "status" (.py (.str s)) = .error .valueError := by
  simp [applyUpdate, h]

theorem applyUpdate_good_status (t : DownloadTask) (s : String) (st : DownloadStatus)
    (h : DownloadStatus.ofString s = some st) :
    applyUpdate t "status" (.py (.str s)) = .ok { t with status := st } := by
  simp [applyUpdate, h]

theorem applyUpdate_unknown (t : DownloadTask) (k : String) (v : UpdVal)
    (hk : k ∉ schemaKeys) :
    applyUpdate t k v
      = .ok { t with extra := t.extra.filter (fun p => p.1 ≠ k) ++ [(k, v)] } := by
  simp only [schemaKeys, List.mem_cons, not_or, List.not_mem_nil, not_false_iff,
    and_true] at hk
  obtain ⟨h1, h2, h3, h4, h5, h6, h7, h8, h9, h10, h11, h12, h13, h14, h15, h16⟩ := hk
  simp [applyUpdate, h1, h2, h3, h4, h5, h6, h7, h8, h9, h10, h11, h12, h13, h14, h15, h16]

theorem applyUpdates_unknown (t0 : DownloadTask) (us : List (String × UpdVal))
    (hus : ∀ p ∈ us, p.1 ∉ schemaKeys) :
    ∃ E, applyUpdates t0 us = .ok { t0 with extra := E } := by
  induction us generalizing t0 with
  | nil => exact ⟨t0.extra, rfl⟩
  | cons p tl ih =>
    obtain ⟨k, v⟩ := p
    have hk := hus (k, v) (by simp)
    obtain ⟨E, hE⟩ := ih { t0 with extra := t0.extra.filter (fun p => p.1 ≠ k) ++ [(k, v)] }
      (fun q hq => hus q (by simp [hq]))
    exact ⟨E, by simp only [applyUpdates, applyUpdate_unknown t0 k v hk]; exact hE⟩

/-! ## Claims -/

/-- C1: the claim says a timed-out backend operation makes the worker mark
the job FAILED with an error message, and that COMPLETED requires a result
location.  The code disagrees: `QobuzService.download` reports a timeout as
`"Download timed out for Qobuz …"`, which does not start with `"Error"`, so
the worker's `result.startswith("Error")` test classifies it as success and
records COMPLETED with `file_path = None`, `error = None` and progress 100.
This theorem evaluates the worker at that failing input. -/
theorem C1_timeout_marked_completed :
    QobuzService.download "12345" "album" "/tmp/out" envTimeout
        = "Download timed out for Qobuz album: 12345"
      ∧ pyStartsWith (QobuzService.download "12345" "album" "/tmp/out" envTimeout) "Error"
          = false
      ∧ taskOutcome
            (worker_run (save_state [(.str "t1", launcherTask demoArgs "t1" 0)]) 0 "t1"
              (.ret (QobuzService.download "12345" "album" "/tmp/out" envTimeout)))
            0 "t1"
          = some (.completed, PyVal.none, PyVal.none) := by
  have hsw : pyStartsWith "Download timed out for Qobuz album: 12345" "Error" = false := by
    decide
  have hext : extract_file_path "Download timed out for Qobuz album: 12345" = PyVal.none := by
    decide
  refine ⟨rfl, by decide, ?_⟩
  show taskOutcome
      (worker_run (save_state [(.str "t1", launcherTask demoArgs "t1" 0)]) 0 "t1"
        (.ret "Download timed out for Qobuz album: 12345")) 0 "t1"
    = some (.completed, PyVal.none, PyVal.none)
  have h1 : update_task (save_state [(.str "t1", launcherTask demoArgs "t1" 0)]) 0
      (.str "t1") [("status", .status .in_progress)]
      = (save_state [(.str "t1", { launcherTask demoArgs "t1" 0 with status := .in_progress, updated_at := 0 })],
         .ok (some { launcherTask demoArgs "t1" 0 with status := .in_progress, updated_at := 0 })) :=
    update_task_single (.str "t1") (launcherTask demoArgs "t1" 0)
      { launcherTask demoArgs "t1" 0 with status := .in_progress } 0
      [("status", .status .in_progress)] rfl rfl rfl
      (applyUpdates_status (launcherTask demoArgs "t1" 0) .in_progress)
  have h2 : worker_finish_updates "Download timed out for Qobuz album: 12345"
      = [("status", .status .completed), ("file_path", .py PyVal.none),
         ("progress", .py (.int 100))] := by
    simp [worker_finish_updates, hsw, hext]
  have h3 : update_task
      (save_state [(.str "t1", { launcherTask demoArgs "t1" 0 with status := .in_progress, updated_at := 0 })]) 0
      (.str "t1")
      [("status", .status .completed), ("file_path", .py PyVal.none), ("progress", .py (.int 100))]
      = (save_state [(.str "t1", { launcherTask demoArgs "t1" 0 with status := .completed, file_path := PyVal.none, progress := .int 100, updated_at := 0 })],
         .ok (some { launcherTask demoArgs "t1" 0 with status := .completed, file_path := PyVal.none, progress := .int 100, updated_at := 0 })) :=
    update_task_single (.str "t1")
      { launcherTask demoArgs "t1" 0 with status := .in_progress, updated_at := 0 }
      { launcherTask demoArgs "t1" 0 with status := .completed, file_path := PyVal.none, progress := .int 100, updated_at := 0 } 0
      _ rfl rfl rfl
      (applyUpdates_complete
        { launcherTask demoArgs "t1" 0 with status := .in_progress, updated_at := 0 }
        PyVal.none)
  have hrun : worker_run (save_state [(.str "t1", launcherTask demoArgs "t1" 0)]) 0 "t1"
      (.ret "Download timed out for Qobuz album: 12345")
      = save_state [(.str "t1", { launcherTask demoArgs "t1" 0 with status := .completed, file_path := PyVal.none, progress := .int 100, updated_at := 0 })] := by
    unfold worker_run
    rw [h1]
    show (update_task
        (save_state [(.str "t1", { launcherTask demoArgs "t1" 0 with status := .in_progress, updated_at := 0 })]) 0
        (.str "t1") (worker_finish_updates "Download timed out for Qobuz album: 12345")).1
      = save_state [(.str "t1", { launcherTask demoArgs "t1" 0 with status := .completed, file_path := PyVal.none, progress := .int 100, updated_at := 0 })]
    rw [h2, h3]
  rw [hrun]
  unfold taskOutcome get_task
  rw [load_save_single (.str "t1")
    { launcherTask demoArgs "t1" 0 with status := .completed, file_path := PyVal.none, progress := .int 100, updated_at := 0 }
    0 rfl rfl rfl]
  simp [storeGet, launcherTask]

/-- C2 (counterexample): the claim quantifies over every interleaving that
includes the termination-signal handler; but if SIGTERM arrives after the
worker's COMPLETED write (while it is still closing its log file), the
handler's best-effort FAILED write moves the record out of a terminal state,
so the observed sequence [PENDING, IN_PROGRESS, COMPLETED, FAILED] is a
prefix of neither allowed chain. -/
theorem C2_terminal_state_left :
    JobSched (launcherTask demoArgs "t1" 0) demoResult
        [.insert (launcherTask demoArgs "t1" 0), .updStart, .updFinish demoResult, .sigterm]
      ∧ statusHistory 0 "t1" .missing
            [.insert (launcherTask demoArgs "t1" 0), .updStart, .updFinish demoResult,
              .sigterm]
          = [.pending, .in_progress, .completed, .failed]
      ∧ ¬ (statusHistory 0 "t1" .missing
              [.insert (launcherTask demoArgs "t1" 0), .updStart, .updFinish demoResult,
                .sigterm]
              <+: [.pending, .in_progress, .completed]
            ∨ statusHistory 0 "t1" .missing
                [.insert (launcherTask demoArgs "t1" 0), .updStart, .updFinish demoResult,
                  .sigterm]
                <+: [.pending, .in_progress, .failed]) := by
  have hh := history_killedLate_ok demoArgs "t1" 0 demoResult (by decide)
  refine ⟨JobSched.killedLate, hh, ?_⟩
  rw [hh]
  intro h
  rcases h with ⟨tail, ht⟩ | ⟨tail, ht⟩ <;> simp at ht

/-- C2 (amended): for every job the launcher submits and every interleaving
of the insert and the worker's updates in which the termination-signal
handler does not run, the successive stored statuses form a prefix of
[PENDING, IN_PROGRESS, COMPLETED] or of [PENDING, IN_PROGRESS, FAILED]:
IN_PROGRESS is never skipped and no record leaves a terminal state. -/
theorem C2_prefix_without_sigterm (args : Args) (tid : String) (now : Datetime)
    (r : String) (evs : List Ev)
    (hs : JobSched (launcherTask args tid now) r evs)
    (hns : Ev.sigterm ∉ evs) :
    statusHistory now tid .missing evs <+: [.pending, .in_progress, .completed]
      ∨ statusHistory now tid .missing evs <+: [.pending, .in_progress, .failed] := by
  cases hs with
  | insertOnly =>
    rw [history_insertOnly]
    left
    exact ⟨[.in_progress, .completed], rfl⟩
  | started =>
    rw [history_started]
    left
    exact ⟨[.completed], rfl⟩
  | finished =>
    by_cases hr : pyStartsWith r "Error" = true
    · rw [history_finished_error args tid now r hr]
      right
      exact ⟨[], rfl⟩
    · rw [history_finished_ok args tid now r (by simpa using hr)]
      left
      exact ⟨[], rfl⟩
  | killedEarly => simp at hns
  | killedMid => simp at hns
  | killedLate => simp at hns

/-- C2 (witness): a concrete successful run. -/
theorem C2_prefix_without_sigterm_witness :
    statusHistory 0 "t1" .missing
        [.insert (launcherTask demoArgs "t1" 0), .updStart, .updFinish demoResult]
        <+: [.pending, .in_progress, .completed]
      ∨ statusHistory 0 "t1" .missing
          [.insert (launcherTask demoArgs "t1" 0), .updStart, .updFinish demoResult]
          <+: [.pending, .in_progress, .failed] :=
  C2_prefix_without_sigterm demoArgs "t1" 0 demoResult _ JobSched.finished (by simp)

/-- C3 (counterexample): a tidal submission is never validated: with no
credentials configured anywhere, `validate_config` passes, and `run_async`
inserts the PENDING record, writes the scratch parameter file and spawns the
worker instead of failing fast. -/
theorem C3_tidal_not_validated :
    validate_config "tidal" configNone = Option.none
      ∧ (run_async tidalArgs configNone .missing 0 "d1").exited = Option.none
      ∧ (run_async tidalArgs configNone .missing 0 "d1").workerSpawned = true
      ∧ (run_async tidalArgs configNone .missing 0 "d1").paramsFile
          = some (paramsPayload tidalArgs "d1")
      ∧ get_task (run_async tidalArgs configNone .missing 0 "d1").fileAfter 0 (.str "d1")
          = .ok (some (launcherTask tidalArgs "d1" 0)) := by
  refine ⟨rfl, by decide, by decide, by decide, rfl⟩

/-- C3 (amended): only qobuz is validated at submit time: a qobuz submission
with qobuz unconfigured fails fast with the recoverable
`qobuz_not_configured` error before any record, scratch file or worker
exists, leaving the store file untouched. -/
theorem C3_qobuz_fail_fast (args : Args) (cfg : Config) (fs : FileState)
    (now : Datetime) (download_id : String)
    (hp : args.platform = "qobuz") (hc : cfg.qobuz.is_configured = false) :
    run_async args cfg fs now download_id
      = { exited := some
            { error := "qobuz_not_configured",
              hint := "Edit .env: set QOBUZ_EMAIL and QOBUZ_PASSWORD (requires Qobuz Studio/Sublime subscription).",
              recoverable := true },
          fileAfter := fs, paramsFile := Option.none, workerSpawned := false,
          returnedId := Option.none } := by
  simp [run_async, validate_config, hp, hc]

/-- C3 (witness): the unconfigured-qobuz fail-fast at a concrete input. -/
theorem C3_qobuz_fail_fast_witness :
    run_async demoArgs configNone .missing 0 "d1"
      = { exited := some
            { error := "qobuz_not_configured",
              hint := "Edit .env: set QOBUZ_EMAIL and QOBUZ_PASSWORD (requires Qobuz Studio/Sublime subscription).",
              recoverable := true },
          fileAfter := .missing, paramsFile := Option.none, workerSpawned := false,
          returnedId := Option.none } :=
  C3_qobuz_fail_fast demoArgs configNone .missing 0 "d1" rfl rfl

/-- C4 (counterexample): `load()` can raise: on a store file whose root
parses as a JSON array, `data.get("downloads", [])` raises
`AttributeError` outside the `try` block, so the exception reaches the
caller instead of an empty mapping. -/
theorem C4_load_raises_on_array_root :
    load_state (.parsed (pyArr [])) 0 = .error .attributeError := rfl

/-- C4 (amended): `load_state` returns an empty mapping on a missing file,
on unparsable JSON, and on an object root without a `downloads` member;
when `downloads` is a list it never raises, keeping for each id exactly the
last entry that parses as a valid record (malformed entries are skipped,
valid ones preserved); concretely, a five-record store file whose third
record lacks `status` yields exactly the four valid records.  (It can still
raise when the root parses to a non-object or `downloads` is not iterable —
see the counterexample.) -/
theorem C4_load_tolerant (now : Datetime) (fields : PyFields) (entries : PyList) :
    load_state .missing now = .ok []
    ∧ load_state .invalidJson now = .ok []
    ∧ (fields.get "downloads" = Option.none → load_state (.parsed (.dict fields)) now = .ok [])
    ∧ (fields.get "downloads" = some (.list entries) →
        load_state (.parsed (.dict fields)) now
            = .ok (entries.toList.foldl (loadEntry now) [])
        ∧ ∀ k, storeGet (entries.toList.foldl (loadEntry now) []) k
            = lastValidWithId now entries.toList k)
    ∧ load_state demoFile5 0
        = .ok [(.str "a", mkTask "a" .pending), (.str "b", mkTask "b" .in_progress),
               (.str "c", mkTask "c" .completed), (.str "d", mkTask "d" .failed)] := by
  refine ⟨rfl, rfl, ?_, ?_, by rfl⟩
  · intro h
    simp [load_state, h]
  · intro h
    refine ⟨by simp [load_state, h], ?_⟩
    intro k
    rw [storeGet_foldl_loadEntry]
    cases hl : lastValidWithId now entries.toList k <;> simp [storeGet, hl, Option.or]

/-- C4 (witness): an object root without a `downloads` member loads as
empty. -/
theorem C4_load_tolerant_witness :
    load_state (.parsed (.dict (PyFields.ofList [("other", .int 1)]))) 3 = .ok [] :=
  (C4_load_tolerant 3 (PyFields.ofList [("other", .int 1)]) .nil).2.2.1 (by decide)

/-- C5: `update_task` loads the store and: returns `None` with the file
untouched when the id is absent; otherwise mutates only the named record,
stamps `updated_at = now`, saves the whole store and returns the updated
record; a string status value is converted to the enum and an unrecognized
one raises with the persisted store unchanged. -/
theorem C5_update_task_spec (fs : FileState) (now : Datetime) (tid : PyVal)
    (us : List (String × UpdVal)) (downloads : Store)
    (hload : load_state fs now = .ok downloads) :
    (storeGet downloads tid = Option.none → update_task fs now tid us = (fs, .ok Option.none))
    ∧ (∀ t0 t', storeGet downloads tid = some t0 → applyUpdates t0 us = .ok t' →
        update_task fs now tid us
            = (save_state (storeInsert downloads tid { t' with updated_at := now }),
               .ok (some { t' with updated_at := now }))
          ∧ ({ t' with updated_at := now }).updated_at = now
          ∧ ∀ k, k ≠ tid →
              storeGet (storeInsert downloads tid { t' with updated_at := now }) k
                = storeGet downloads k)
    ∧ (∀ t0 e, storeGet downloads tid = some t0 → applyUpdates t0 us = .error e →
        update_task fs now tid us = (fs, .error e))
    ∧ (∀ t0 s, storeGet downloads tid = some t0 → ("status", UpdVal.py (.str s)) ∈ us →
        DownloadStatus.ofString s = Option.none →
        ∃ e, update_task fs now tid us = (fs, .error e))
    ∧ (∀ t s st, DownloadStatus.ofString s = some st →
        applyUpdate t "status" (UpdVal.py (.str s)) = .ok { t with status := st }) := by
  refine ⟨?_, ?_, ?_, ?_, ?_⟩
  · intro h
    simp only [update_task, hload, h]
  · intro t0 t' h happ
    refine ⟨?_, rfl, ?_⟩
    · simp only [update_task, hload, h, happ]
    · intro k hk
      exact storeGet_storeInsert_ne downloads tid k _ (Ne.symm hk)
  · intro t0 e h happ
    simp only [update_task, hload, h, happ]
  · intro t0 s h hmem hbad
    obtain ⟨e, he⟩ := applyUpdates_error_of_mem hmem
      (fun t' => ⟨.valueError, applyUpdate_bad_status t' s hbad⟩) t0
    refine ⟨e, ?_⟩
    simp only [update_task, hload, h, he]
  · intro t s st hst
    exact applyUpdate_good_status t s st hst

/-- C5 (witness): an absent id leaves the persisted store untouched and
returns `None`. -/
theorem C5_update_task_spec_witness :
    update_task (save_state [(.str "a", mkTask "a" .pending)]) 1 (.str "zz") []
      = (save_state [(.str "a", mkTask "a" .pending)], .ok Option.none) :=
  (C5_update_task_spec (save_state [(.str "a", mkTask "a" .pending)]) 1 (.str "zz") []
    [(.str "a", mkTask "a" .pending)] (by rfl)).1 (by decide)

/-- C6: `save(load())` is a logical no-op on persisted store files: loading
a saved well-keyed store recovers every record (minus in-memory-only
non-schema attributes, which the file never carried), and saving the loaded
mapping reproduces the identical file, so all field values and timestamps
survive the round trip. -/
theorem C6_save_load_no_op (st : Store) (now : Datetime)
    (hwk : WellKeyed st) (hnd : (storeKeys st).Nodup) :
    load_state (save_state st) now = .ok (st.map (fun p => (p.1, p.2.clearExtra)))
    ∧ save_state (st.map (fun p => (p.1, p.2.clearExtra))) = save_state st := by
  refine ⟨load_state_save_state st now hwk hnd, ?_⟩
  simp only [save_state, List.map_map]
  rfl

/-- C6 (witness): a concrete two-record store round-trips. -/
theorem C6_save_load_no_op_witness :
    load_state (save_state [(.str "a", mkTask "a" .pending), (.str "b", mkTask "b" .failed)]) 7
        = .ok ([(.str "a", mkTask "a" .pending), (.str "b", mkTask "b" .failed)].map
            (fun p => (p.1, p.2.clearExtra)))
      ∧ save_state ([(.str "a", mkTask "a" .pending), (.str "b", mkTask "b" .failed)].map
            (fun p => (p.1, p.2.clearExtra)))
          = save_state [(.str "a", mkTask "a" .pending), (.str "b", mkTask "b" .failed)] :=
  C6_save_load_no_op [(.str "a", mkTask "a" .pending), (.str "b", mkTask "b" .failed)] 7
    (by unfold WellKeyed; decide) (by decide)

/-- C7 (counterexample): `get` is not deterministic across two runs when a
record's timestamp fields are missing: `_parse_datetime` falls back to
`datetime.now()`, so two loads at different times return different
`created_at`/`updated_at` values for the same file contents. -/
theorem C7_get_depends_on_clock :
    get_task demoFileNoTs 5 (.str "a") ≠ get_task demoFileNoTs 9 (.str "a") := by
  decide

/-- C7 (amended): `get` called twice with no intervening update returns
identical data for every store file in which each record's `created_at` and
`updated_at` members are present and non-empty — the read path then never
consults the clock, so it is deterministic over the file contents. -/
theorem C7_get_deterministic (fs : FileState) (tid : PyVal) (now₁ now₂ : Datetime)
    (h : fileTimeComplete fs = true) :
    get_task fs now₁ tid = get_task fs now₂ tid := by
  unfold get_task
  rw [load_state_indep fs now₁ now₂ h]

/-- C7 (witness): with timestamps present, two reads at different times
agree. -/
theorem C7_get_deterministic_witness :
    get_task (save_state [(.str "a", mkTask "a" .pending)]) 3 (.str "a")
      = get_task (save_state [(.str "a", mkTask "a" .pending)]) 8 (.str "a") :=
  C7_get_deterministic (save_state [(.str "a", mkTask "a" .pending)]) (.str "a") 3 8
    (by decide)

theorem map_clearExtra_eq_self {st : Store} (h : ∀ p ∈ st, p.2.extra = []) :
    st.map (fun p => (p.1, p.2.clearExtra)) = st := by
  induction st with
  | nil => rfl
  | cons p tl ih =>
    simp only [List.map_cons]
    rw [clearExtra_eq_self (h p (by simp)), ih (fun q hq => h q (by simp [hq]))]

/-- C8 (counterexample): the dashboard's `/api/downloads` read path is not
equivalent to `load_state`: it returns the raw `downloads` entries without
per-record validation, so a malformed record that `load_state` skips still
appears in the listing. -/
theorem C8_api_not_load_equivalent :
    apiEntries demoFileMixed = some [mkRec "a" "pending", badRec]
      ∧ load_state demoFileMixed 0 = .ok [(.str "a", mkTask "a" .pending)]
      ∧ apiEntries demoFileMixed
          ≠ some (([(.str "a", mkTask "a" .pending)] : Store).map (fun p => p.2.to_dict)) := by
  refine ⟨by rfl, by rfl, by decide⟩

/-- C8 (amended): the API read path returns the raw `downloads` member of
the file; it coincides with `load_state` exactly on well-formed saved
stores, where both yield the same record set, and both degrade to zero jobs
on an absent or fully corrupt store file.  On files with malformed
individual records the two differ (see the counterexample): only
`load_state` skips them. -/
theorem C8_api_equiv_on_saved (st : Store) (now : Datetime)
    (hwk : WellKeyed st) (hnd : (storeKeys st).Nodup) :
    apiEntries (save_state st) = some (st.map (fun p => p.2.to_dict))
    ∧ load_state (save_state st) now = .ok (st.map (fun p => (p.1, p.2.clearExtra)))
    ∧ (st.map (fun p => (p.1, p.2.clearExtra))).map (fun p => p.2.to_dict)
        = st.map (fun p => p.2.to_dict)
    ∧ apiEntries .missing = some []
    ∧ apiEntries .invalidJson = some []
    ∧ load_state .missing now = .ok []
    ∧ load_state .invalidJson now = .ok [] := by
  refine ⟨?_, load_state_save_state st now hwk hnd, ?_, rfl, rfl, rfl, rfl⟩
  · simp [apiEntries, read_downloads_from_file, save_state, pyObj, pyArr,
      PyFields.ofList, PyFields.get, PyFields.getD, PyVal.pyLen]
  · simp only [List.map_map]
    rfl

/-- C8 (witness): a concrete saved store where the API and `load_state`
agree. -/
theorem C8_api_equiv_on_saved_witness :
    apiEntries (save_state [(.str "a", mkTask "a" .pending)])
      = some (([(.str "a", mkTask "a" .pending)] : Store).map (fun p => p.2.to_dict)) :=
  (C8_api_equiv_on_saved [(.str "a", mkTask "a" .pending)] 0
    (by unfold WellKeyed; decide) (by decide)).1

/-- C9: when the `downloads` list carries several otherwise-valid entries
with the same id, `load_state` maps that id to the entry occurring last in
file order (earlier duplicates are silently discarded), and the next
`save_state` persists exactly one record with that id — the duplicates are
permanently collapsed. -/
theorem C9_duplicate_id_last_wins (pre C : List PyVal) (e2 : PyVal)
    (fields : PyFields) (now : Datetime) (k : PyVal) (t2 : DownloadTask)
    (hget : fields.get "downloads" = some (.list (PyList.ofList (pre ++ e2 :: C))))
    (hv2 : validTask now e2 = some t2) (hid2 : t2.id = k)
    (hdup : ∃ e1 ∈ pre, ∃ t1, validTask now e1 = some t1 ∧ t1.id = k)
    (hC : ∀ e ∈ C, ∀ t', validTask now e = some t' → t'.id ≠ k) :
    ∃ st, load_state (.parsed (.dict fields)) now = .ok st
      ∧ storeGet st k = some t2
      ∧ load_state (save_state st) now = .ok st
      ∧ (st.map (fun p => p.2.to_dict)).filter (fun d => decide (entryIdOf d = some k))
          = [t2.to_dict] := by
  obtain ⟨hwk, hnd, hclean⟩ := foldl_loadEntry_inv now (pre ++ e2 :: C) []
    ⟨fun p hp => absurd hp (List.not_mem_nil p), by simp [storeKeys],
     fun p hp => absurd hp (List.not_mem_nil p)⟩
  refine ⟨(pre ++ e2 :: C).foldl (loadEntry now) [], ?_, ?_, ?_, ?_⟩
  · simp [load_state, hget]
  · rw [storeGet_foldl_loadEntry]
    have hlast : lastValidWithId now (pre ++ e2 :: C) k = some t2 := by
      unfold lastValidWithId
      rw [List.filterMap_append, List.filterMap_cons, hv2, List.filter_append,
        List.filter_cons_of_pos (by simp [hid2])]
      have hCnil : (C.filterMap (validTask now)).filter (fun t => decide (t.id = k)) = [] := by
        rw [List.filter_eq_nil_iff]
        intro a ha
        obtain ⟨e, he, hev⟩ := List.mem_filterMap.mp ha
        simp [hC e he a hev]
      rw [hCnil]
      exact List.getLast?_concat _
    rw [hlast]
    rfl
  · rw [load_state_save_state _ now hwk hnd, map_clearExtra_eq_self hclean]
  · have hgetk : storeGet ((pre ++ e2 :: C).foldl (loadEntry now) []) k = some t2 := by
      rw [storeGet_foldl_loadEntry]
      have hlast : lastValidWithId now (pre ++ e2 :: C) k = some t2 := by
        unfold lastValidWithId
        rw [List.filterMap_append, List.filterMap_cons, hv2, List.filter_append,
          List.filter_cons_of_pos (by simp [hid2])]
        have hCnil : (C.filterMap (validTask now)).filter (fun t => decide (t.id = k)) = [] := by
          rw [List.filter_eq_nil_iff]
          intro a ha
          obtain ⟨e, he, hev⟩ := List.mem_filterMap.mp ha
          simp [hC e he a hev]
        rw [hCnil]
        exact List.getLast?_concat _
      rw [hlast]
      rfl
    have hfilter := filter_key_of_nodup hnd hgetk
    have hcong : ∀ p ∈ (pre ++ e2 :: C).foldl (loadEntry now) [],
        ((fun d => decide (entryIdOf d = some k)) ∘ fun p => p.2.to_dict) p
          = (fun p => decide (p.1 = k)) p := by
      intro p hp
      simp only [Function.comp]
      rw [entryIdOf_to_dict]
      obtain ⟨hkid, -⟩ := hwk p hp
      rw [← hkid]
      simp
    rw [List.filter_map, List.filter_congr hcong, hfilter]
    rfl

/-- C9 (witness): a three-entry file whose first and third entries share
id "a". -/
theorem C9_duplicate_id_last_wins_witness :
    ∃ st, load_state demoFileDup 0 = .ok st
      ∧ storeGet st (.str "a") = some (mkTask "a" .completed)
      ∧ load_state (save_state st) 0 = .ok st
      ∧ (st.map (fun p => p.2.to_dict)).filter
            (fun d => decide (entryIdOf d = some (.str "a")))
          = [(mkTask "a" .completed).to_dict] :=
  C9_duplicate_id_last_wins [mkRec "a" "pending", mkRec "b" "pending"] []
    (mkRec "a" "completed")
    (PyFields.ofList [("downloads", pyArr
      [mkRec "a" "pending", mkRec "b" "pending", mkRec "a" "completed"])])
    0 (.str "a") (mkTask "a" .completed)
    (by rfl) (by rfl) (by rfl)
    ⟨mkRec "a" "pending", by simp, mkTask "a" .pending, by rfl, rfl⟩
    (fun e he => absurd he (List.not_mem_nil e))

/-- C10: an `update_task` call whose field names all lie outside the record
schema succeeds (no field-name validation is performed), attaches the
values as in-memory instance attributes, and persists a record identical to
the original except for `updated_at`, because serialization writes only the
fixed schema fields. -/
theorem C10_unknown_fields_ignored (fs : FileState) (now : Datetime) (tid : PyVal)
    (us : List (String × UpdVal)) (downloads : Store) (t0 : DownloadTask)
    (hload : load_state fs now = .ok downloads)
    (hget : storeGet downloads tid = some t0)
    (hus : ∀ p ∈ us, p.1 ∉ schemaKeys) :
    ∃ E, applyUpdates t0 us = .ok { t0 with extra := E }
      ∧ update_task fs now tid us
          = (save_state (storeInsert downloads tid { t0 with extra := E, updated_at := now }),
             .ok (some { t0 with extra := E, updated_at := now }))
      ∧ ({ t0 with extra := E, updated_at := now }).to_dict
          = ({ t0 with updated_at := now }).to_dict := by
  obtain ⟨E, hE⟩ := applyUpdates_unknown t0 us hus
  refine ⟨E, hE, ?_, rfl⟩
  simp only [update_task, hload, hget, hE]

/-- C10 (witness): updating a record with the unknown key `custom_note`. -/
theorem C10_unknown_fields_ignored_witness :
    ∃ E, applyUpdates (mkTask "a" .pending) [("custom_note", .py (.str "x"))]
          = .ok { mkTask "a" .pending with extra := E }
      ∧ update_task (save_state [(.str "a", mkTask "a" .pending)]) 4 (.str "a")
            [("custom_note", .py (.str "x"))]
          = (save_state (storeInsert [(.str "a", mkTask "a" .pending)] (.str "a")
              { mkTask "a" .pending with extra := E, updated_at := 4 }),
             .ok (some { mkTask "a" .pending with extra := E, updated_at := 4 }))
      ∧ ({ mkTask "a" .pending with extra := E, updated_at := 4 }).to_dict
          = ({ mkTask "a" .pending with updated_at := 4 }).to_dict :=
  C10_unknown_fields_ignored (save_state [(.str "a", mkTask "a" .pending)]) 4 (.str "a")
    [("custom_note", .py (.str "x"))] [(.str "a", mkTask "a" .pending)]
    (mkTask "a" .pending) (by rfl) (by rfl) (by decide)
